import Mathlib

/-!
Shallow embedding of the CryptographicDataVault core: the key lifecycle
manager (`keyManager.js`), the AEAD cipher service (`encryptionService.js`),
the in-memory data store (`dataStore.js`) and the vault orchestrator
(`vaultService.js`).  JavaScript `Buffer`/`ArrayBuffer` contents are byte
sequences (`List Nat`, each element a byte value); buffer objects live in an
explicit heap `Mem` so that reference semantics (aliasing, `fill(0)`,
dereferencing) can be stated.  Randomness (`crypto.randomBytes`,
`crypto.randomUUID`) and wall-clock times (`new Date()`) are threaded as
explicit parameters.  Library primitives from `node:crypto` (HKDF-SHA256,
AES-256-GCM) are idealized as executable pure functions; the AES-GCM
authentication tag is modelled as an ideal (collision-free) MAC, which is
exactly the guarantee the source relies on for tamper detection.
-/

/-- Byte sequences: contents of a JavaScript Buffer, ArrayBuffer or string. -/
abbrev Bytes := List Nat

/-- Value of one hex character, as in Buffer.from(s, 'hex'): digits, then
lowercase a-f (code 97+), then uppercase A-F (code 65+). Input is the
UTF-16 code unit of the character. -/
def hexVal (c : Nat) : Nat :=
  if 97 ≤ c then c - 87 else if 65 ≤ c then c - 55 else c - 48

/-- Buffer.from(masterKey, 'hex'): decode consecutive pairs of hex characters
into bytes (a trailing unpaired character is dropped, as in Node). -/
def hexDecode : List Nat → Bytes
  | c1 :: c2 :: rest => (hexVal c1 * 16 + hexVal c2) % 256 :: hexDecode rest
  | _ => []

/-- crypto.hkdfSync('sha256', ikm, salt, info, len), idealized as a pure
deterministic function of its inputs producing `len` bytes.  Note that in
Node this call returns an ArrayBuffer, not a Buffer; the caller records that
distinction in the heap cell (`isNodeBuffer := false`). -/
def hkdfSha256 (ikm salt info : Bytes) (len : Nat) : Bytes :=
  (List.range len).map (fun i => (ikm.sum * 131 + salt.sum * 137 + info.sum * 139 + i * 31 + 7) % 256)

/-- Byte content of the context string given to HKDF, the template literal
vault-key-v followed by the decimal digits of the version. -/
def infoFor (v : Nat) : Bytes :=
  [118, 97, 117, 108, 116, 45, 107, 101, 121, 45, 118] ++ (Nat.toDigits 10 v).map Char.toNat

/-- Keystream byte `i` of the idealized AES-256-GCM cipher under (key, iv). -/
def ksByte (key iv : Bytes) (i : Nat) : Nat :=
  (key.sum * 151 + iv.sum * 163 + i * 17 + 29) % 256

/-- Idealized GCM encryption body: mask the plaintext with the keystream,
starting at keystream position `i`. -/
def gcmMask (key iv : Bytes) : Nat → Bytes → Bytes
  | _, [] => []
  | i, b :: bs => (b + ksByte key iv i) % 256 :: gcmMask key iv (i + 1) bs

/-- Idealized GCM decryption body: unmask a ciphertext, starting at
keystream position `i`. -/
def gcmUnmask (key iv : Bytes) : Nat → Bytes → Bytes
  | _, [] => []
  | i, c :: cs => (c + (256 - ksByte key iv i)) % 256 :: gcmUnmask key iv (i + 1) cs

/-- Idealized GCM authentication tag over (key, iv, ciphertext): an ideal MAC,
modelled as an injective encoding of its inputs, reflecting that the source
treats a verifying tag as proof that key, iv and ciphertext are untampered. -/
def gcmTag (key iv ct : Bytes) : Bytes :=
  key.length :: (key ++ (iv.length :: (iv ++ ct)))

/-- Result of EncryptionService.encrypt: ciphertext, iv and auth tag buffers. -/
structure EncryptedData where
  ciphertext : Bytes
  iv : Bytes
  tag : Bytes
deriving DecidableEq

/-- Base64-serialized form of EncryptedData, as stored by the data store.
Base64 transport (Buffer.toString('base64') / Buffer.from(_, 'base64')) is a
bijection on byte content, so serialized fields are modelled by the byte
sequences they encode. -/
structure SerializedData where
  ciphertext : Bytes
  iv : Bytes
  tag : Bytes
deriving DecidableEq

/-- Failure modes of EncryptionService.decrypt: the auth-failure branch
(message 'Decryption failed: Invalid key or tampered data') versus the
generic branch ('Decryption operation failed'). -/
inductive DecryptError
  | authenticationFailed
  | operationFailed
deriving DecidableEq

namespace EncryptionService

/-- EncryptionService.encrypt(data, key) with the fresh random iv passed
explicitly.  `data` is the JSON-serialized payload: JSON.stringify produces
the plaintext bytes, and payloads are modelled by their serialized byte
form throughout. -/
def encrypt (data : Bytes) (key : Bytes) (iv : Bytes) : EncryptedData :=
  let ciphertext := gcmMask key iv 0 data
  { ciphertext := ciphertext, iv := iv, tag := gcmTag key iv ciphertext }

/-- EncryptionService.decrypt(ciphertext, iv, tag, key).  createDecipheriv
rejects a key that is not 32 bytes (generic failure); decipher.final()
throws the authentication error when the tag does not verify; on success the
plaintext bytes are returned (JSON.parse of the decrypted string is the
inverse of the JSON.stringify applied at encrypt, so payloads stay in
serialized byte form). -/
def decrypt (ciphertext iv tag key : Bytes) : Except DecryptError Bytes :=
  if key.length ≠ 32 then .error .operationFailed
  else if tag = gcmTag key iv ciphertext then .ok (gcmUnmask key iv 0 ciphertext)
  else .error .authenticationFailed

/-- EncryptionService.serialize: convert each Buffer field to base64 text
(field-by-field copy at the byte-content level). -/
def serialize (e : EncryptedData) : SerializedData :=
  { ciphertext := e.ciphertext, iv := e.iv, tag := e.tag }

/-- EncryptionService.deserialize: convert each base64 field back to a
Buffer (field-by-field copy at the byte-content level). -/
def deserialize (s : SerializedData) : EncryptedData :=
  { ciphertext := s.ciphertext, iv := s.iv, tag := s.tag }

end EncryptionService

/-- Contents of one allocated buffer object.  `isNodeBuffer` records whether
the object is a Node Buffer (created via Buffer.from / Buffer.concat, for
which Buffer.isBuffer is true) or an ArrayBuffer (the return type of
crypto.hkdfSync, for which Buffer.isBuffer is false). -/
structure BufCell where
  bytes : Bytes
  isNodeBuffer : Bool
deriving DecidableEq

/-- Heap of allocated buffer objects, keyed by allocation order. -/
structure Mem where
  next : Nat
  contents : List (Nat × BufCell)
deriving DecidableEq

def Mem.empty : Mem := { next := 0, contents := [] }

def Mem.alloc (m : Mem) (c : BufCell) : Mem × Nat :=
  ({ next := m.next + 1, contents := (m.next, c) :: m.contents }, m.next)

def Mem.lookupCell (m : Mem) (b : Nat) : Option BufCell :=
  m.contents.lookup b

/-- Byte content currently held by buffer `b` (empty for a dangling id). -/
def Mem.read (m : Mem) (b : Nat) : Bytes :=
  ((m.lookupCell b).map BufCell.bytes).getD []

/-- buffer.fill(0): overwrite every byte of buffer `b` with zero, in place. -/
def Mem.fillZero (m : Mem) (b : Nat) : Mem :=
  { m with contents := m.contents.map (fun p =>
      if p.1 = b then (p.1, { p.2 with bytes := List.replicate p.2.bytes.length 0 }) else p) }

/-- The only error thrown by the KeyManager constructor: master key missing
or not 64 hex characters. -/
inductive KMError
  | invalidSecretLength
deriving DecidableEq

/-- Mutable fields of a KeyManager instance.  Buffer-valued fields hold heap
ids; `rotationTimer` records whether the setInterval timer is active. -/
structure KeyManager where
  masterKeyBuffer : Nat
  rotationIntervalMs : Nat
  currentVersion : Nat
  previousVersion : Option Nat
  currentKey : Option Nat
  previousKey : Option Nat
  rotationTimer : Bool
  lastRotationTime : Option Nat
deriving DecidableEq

namespace KeyManager

/-- KeyManager constructor: validate the master key (reject a missing or
non-64-character string), store it as a Buffer, run _generateInitialKey
(derive the version-1 key from a fresh random salt, record the rotation
time) and _startRotation.  The salt drawn by crypto.randomBytes and the
construction time are explicit parameters; the manager allocates its
buffers into a fresh heap. -/
def make (masterKey : Option (List Nat)) (rotationIntervalMs : Nat) (salt : Bytes)
    (now : Nat) : Except KMError (KeyManager × Mem) :=
  match masterKey with
  | none => .error .invalidSecretLength
  | some mkey =>
    if mkey.length ≠ 64 then .error .invalidSecretLength
    else
      let p1 := Mem.empty.alloc { bytes := hexDecode mkey, isNodeBuffer := true }
      let keyBytes := hkdfSha256 (p1.1.read p1.2) salt (infoFor 1) 32
      let p2 := p1.1.alloc { bytes := keyBytes, isNodeBuffer := false }
      .ok ({ masterKeyBuffer := p1.2, rotationIntervalMs := rotationIntervalMs,
             currentVersion := 1, previousVersion := none,
             currentKey := some p2.2, previousKey := none,
             rotationTimer := true, lastRotationTime := some now }, p2.1)

/-- KeyManager.rotateKey with the outcome of the crypto.hkdfSync call made
explicit: the method first overwrites previousKey/previousVersion with the
current pair and increments currentVersion; only then does it call hkdfSync.
When the derivation succeeds (`deriveOk = true`) the new key is installed
and the rotation time updated; when hkdfSync throws, the method aborts with
the earlier field mutations already applied and the heap untouched. -/
def rotateKeyAttempt (km : KeyManager) (mem : Mem) (salt : Bytes) (now : Nat)
    (deriveOk : Bool) : KeyManager × Mem :=
  let km1 := { km with previousKey := km.currentKey,
                       previousVersion := some km.currentVersion,
                       currentVersion := km.currentVersion + 1 }
  if deriveOk then
    let keyBytes := hkdfSha256 (mem.read km.masterKeyBuffer) salt (infoFor km1.currentVersion) 32
    let p := mem.alloc { bytes := keyBytes, isNodeBuffer := false }
    ({ km1 with currentKey := some p.2, lastRotationTime := some now }, p.1)
  else (km1, mem)

/-- KeyManager.rotateKey on the normal path (derivation succeeds). -/
def rotateKey (km : KeyManager) (mem : Mem) (salt : Bytes) (now : Nat) : KeyManager × Mem :=
  km.rotateKeyAttempt mem salt now true

/-- KeyManager.forceRotation delegates to rotateKey. -/
def forceRotation (km : KeyManager) (mem : Mem) (salt : Bytes) (now : Nat) : KeyManager × Mem :=
  km.rotateKey mem salt now

/-- KeyManager.getCurrentKey: the current key buffer (null before
_generateInitialKey has run) and the current version. -/
def getCurrentKey (km : KeyManager) : Option Nat × Nat :=
  (km.currentKey, km.currentVersion)

/-- KeyManager.getKeyByVersion: the current key for the current version, the
previous key for the previous version when that slot holds a key, null
otherwise. -/
def getKeyByVersion (km : KeyManager) (version : Nat) : Option Nat :=
  if version = km.currentVersion then km.currentKey
  else if some version = km.previousVersion ∧ km.previousKey.isSome then km.previousKey
  else none

/-- KeyManager.isVersionSupported. -/
def isVersionSupported (km : KeyManager) (version : Nat) : Bool :=
  decide (version = km.currentVersion) ||
    (decide (some version = km.previousVersion) && km.previousKey.isSome)

/-- Result shape of KeyManager.getKeyInfo (no key material). -/
structure KeyInfoResult where
  currentVersion : Nat
  previousVersion : Option Nat
  lastRotationTime : Option Nat
  nextRotationTime : Option Nat
deriving DecidableEq

/-- KeyManager.getKeyInfo. -/
def getKeyInfo (km : KeyManager) : KeyInfoResult :=
  { currentVersion := km.currentVersion, previousVersion := km.previousVersion,
    lastRotationTime := km.lastRotationTime,
    nextRotationTime := km.lastRotationTime.map (fun t => t + km.rotationIntervalMs) }

/-- Zero a buffer only when it exists and Buffer.isBuffer holds for it,
mirroring the guard in KeyManager.destroy. -/
def fillIfNodeBuffer (mem : Mem) (ob : Option Nat) : Mem :=
  match ob with
  | none => mem
  | some b =>
    match mem.lookupCell b with
    | some c => if c.isNodeBuffer then mem.fillZero b else mem
    | none => mem

/-- KeyManager.destroy: cancel the rotation timer, then fill currentKey,
previousKey and masterKeyBuffer with zeroes, each guarded by
Buffer.isBuffer.  The derived keys are ArrayBuffers (hkdfSync return
values), so their guards are false and only the master key Buffer is
actually zeroed. -/
def destroy (km : KeyManager) (mem : Mem) : KeyManager × Mem :=
  let km1 := { km with rotationTimer := false }
  let mem1 := fillIfNodeBuffer mem km.currentKey
  let mem2 := fillIfNodeBuffer mem1 km.previousKey
  let mem3 := fillIfNodeBuffer mem2 (some km.masterKeyBuffer)
  (km1, mem3)

end KeyManager

/-- One record held by the data store (`dataStore.js` storage structure). -/
structure StoredRecord where
  id : Nat
  keyVersion : Nat
  ciphertext : Bytes
  iv : Bytes
  tag : Bytes
  timestamp : Nat
  metadata : List (Bytes × Bytes)
deriving DecidableEq

/-- In-memory data store: a map from record id to record.  crypto.randomUUID
is modelled by a fresh counter (uniqueness of generated ids is the property
the source relies on). -/
structure DataStore where
  storage : List (Nat × StoredRecord)
  nextId : Nat
deriving DecidableEq

namespace DataStore

def empty : DataStore := { storage := [], nextId := 0 }

/-- DataStore.store(encryptedData, keyVersion, metadata): generate a fresh
id, build the record with the creation time, and insert it. -/
def store (ds : DataStore) (encryptedData : SerializedData) (keyVersion : Nat)
    (metadata : List (Bytes × Bytes)) (now : Nat) : DataStore × Nat :=
  let id := ds.nextId
  let record : StoredRecord :=
    { id := id, keyVersion := keyVersion, ciphertext := encryptedData.ciphertext,
      iv := encryptedData.iv, tag := encryptedData.tag, timestamp := now,
      metadata := metadata }
  ({ storage := (id, record) :: ds.storage, nextId := ds.nextId + 1 }, id)

/-- DataStore.retrieve(id): the record, or null when absent. -/
def retrieve (ds : DataStore) (id : Nat) : Option StoredRecord :=
  ds.storage.lookup id

/-- DataStore.clear(). -/
def clear (ds : DataStore) : DataStore :=
  { ds with storage := [] }

end DataStore

/-- Failure of VaultService.store ('Failed to store data', wrapping any
inner error such as encrypting with a null key). -/
inductive StoreError
  | storeFailed
deriving DecidableEq

/-- Result of VaultService.store: record id, key version and timestamp. -/
structure StoreResult where
  id : Nat
  keyVersion : Nat
  timestamp : Nat
deriving DecidableEq

/-- Failure modes of VaultService.retrieve, one per throw site: record not
found; key version no longer supported (the message interpolates the
requested version, getCurrentKey().version and getKeyInfo().previousVersion);
decryption key not available; and the two decrypt failures propagated from
the encryption service. -/
inductive RetrieveError
  | recordNotFound
  | keyVersionExpired (requested : Nat) (current : Nat) (previous : Option Nat)
  | keyNotAvailable
  | authenticationFailed
  | decryptionFailed
deriving DecidableEq

/-- Successful result of VaultService.retrieve: decrypted data plus the
metadata block (key version used, encryption timestamp). -/
structure RetrieveResult where
  data : Bytes
  keyVersion : Nat
  encryptedAt : Nat
deriving DecidableEq

/-- State owned by a VaultService instance: the key manager and its buffer
heap, and the data store. -/
structure VaultState where
  keyManager : KeyManager
  mem : Mem
  dataStore : DataStore
deriving DecidableEq

namespace VaultService

/-- VaultService constructor: build the KeyManager (propagating its
validation error), EncryptionService (stateless) and an empty DataStore. -/
def make (masterKey : Option (List Nat)) (rotationIntervalMs : Nat) (salt : Bytes)
    (now : Nat) : Except KMError VaultState :=
  (KeyManager.make masterKey rotationIntervalMs salt now).map
    (fun p => { keyManager := p.1, mem := p.2, dataStore := DataStore.empty })

/-- VaultService.store(data): take the current key and version, encrypt the
payload (the fresh random iv is an explicit parameter), serialize, store,
and return id/version/timestamp.  If the current key is null the encrypt
call throws and the catch block reports the store failure. -/
def store (s : VaultState) (data : Bytes) (iv : Bytes) (now : Nat) :
    Except StoreError (VaultState × StoreResult) :=
  match s.keyManager.getCurrentKey with
  | (none, _) => .error .storeFailed
  | (some kid, version) =>
    let key := s.mem.read kid
    let encryptedData := EncryptionService.encrypt data key iv
    let serialized := EncryptionService.serialize encryptedData
    let p := s.dataStore.store serialized version [] now
    .ok ({ s with dataStore := p.1 },
         { id := p.2, keyVersion := version, timestamp := now })

/-- VaultService.retrieve(id): fetch the record, reject an unsupported key
version (reporting current and previous versions), resolve the key for the
record's version, deserialize and decrypt, and return the data with its
metadata. -/
def retrieve (s : VaultState) (id : Nat) : Except RetrieveError RetrieveResult :=
  match s.dataStore.retrieve id with
  | none => .error .recordNotFound
  | some record =>
    if s.keyManager.isVersionSupported record.keyVersion then
      match s.keyManager.getKeyByVersion record.keyVersion with
      | none => .error .keyNotAvailable
      | some kid =>
        let key := s.mem.read kid
        let encryptedData := EncryptionService.deserialize
          { ciphertext := record.ciphertext, iv := record.iv, tag := record.tag }
        match EncryptionService.decrypt encryptedData.ciphertext encryptedData.iv
            encryptedData.tag key with
        | .error DecryptError.authenticationFailed => .error .authenticationFailed
        | .error DecryptError.operationFailed => .error .decryptionFailed
        | .ok plaintext =>
          .ok { data := plaintext, keyVersion := record.keyVersion,
                encryptedAt := record.timestamp }
    else
      .error (.keyVersionExpired record.keyVersion
        (s.keyManager.getCurrentKey).2 (s.keyManager.getKeyInfo).previousVersion)

/-- VaultService.forceRotation delegates to the key manager. -/
def forceRotation (s : VaultState) (salt : Bytes) (now : Nat) : VaultState :=
  let p := s.keyManager.forceRotation s.mem salt now
  { s with keyManager := p.1, mem := p.2 }

/-- VaultService.destroy: destroy the key manager and clear the store. -/
def destroy (s : VaultState) : VaultState :=
  let p := s.keyManager.destroy s.mem
  { keyManager := p.1, mem := p.2, dataStore := s.dataStore.clear }

end VaultService

/-- Key-manager states reachable from a successful construction by any
finite sequence of (successful) rotateKey calls. -/
inductive KMReach : KeyManager → Mem → Prop
  | made (masterKey : Option (List Nat)) (rotationIntervalMs : Nat) (salt : Bytes)
      (now : Nat) (km : KeyManager) (mem : Mem)
      (h : KeyManager.make masterKey rotationIntervalMs salt now = .ok (km, mem)) :
      KMReach km mem
  | rotated (km : KeyManager) (mem : Mem) (salt : Bytes) (now : Nat)
      (h : KMReach km mem) :
      KMReach (km.rotateKey mem salt now).1 (km.rotateKey mem salt now).2

/-- Structural invariant of reachable key-manager states. -/
def KMInv (km : KeyManager) (mem : Mem) : Prop :=
  km.currentKey.isSome = true ∧
  (∀ n, km.previousVersion = some n → km.currentVersion = n + 1) ∧
  (km.previousKey.isSome = true → km.previousVersion.isSome = true) ∧
  (∀ p ∈ mem.contents, p.1 < mem.next)

/-- Which stored field a tampering flips a bit of. -/
inductive TamperField
  | ct
  | iv
  | tag
deriving DecidableEq

/-- Flip bit `j` of byte `i` of a byte sequence. -/
def flipBit (bs : Bytes) (i j : Nat) : Bytes :=
  bs.set i ((bs.getD i 0) ^^^ (2 ^ j))

/-- The field of a record that a tampering targets. -/
def tamperTarget : TamperField → StoredRecord → Bytes
  | .ct, r => r.ciphertext
  | .iv, r => r.iv
  | .tag, r => r.tag

/-- The record with one bit of the chosen field flipped. -/
def tamperRecord : TamperField → StoredRecord → Nat → Nat → StoredRecord
  | .ct, r, i, j => { r with ciphertext := flipBit r.ciphertext i j }
  | .iv, r, i, j => { r with iv := flipBit r.iv i j }
  | .tag, r, i, j => { r with tag := flipBit r.tag i j }

/-- Concrete 64-character master key (64 times the character a). -/
def demoMasterKey : List Nat := List.replicate 64 97

/-- Concrete freshly constructed key manager and its heap. -/
def demoKM0 : KeyManager × Mem :=
  match KeyManager.make (some demoMasterKey) 1000 [1] 5 with
  | .ok p => p
  | .error _ => ({ masterKeyBuffer := 0, rotationIntervalMs := 0, currentVersion := 0,
                   previousVersion := none, currentKey := none, previousKey := none,
                   rotationTimer := false, lastRotationTime := none }, Mem.empty)

/-- The demo key manager after one rotation. -/
def demoKM1 : KeyManager × Mem := demoKM0.1.rotateKey demoKM0.2 [2] 6

/-- The demo key manager after two rotations. -/
def demoKM2 : KeyManager × Mem := demoKM1.1.rotateKey demoKM1.2 [3] 7

/-- Heap cell of the version-1 derived key of the demo manager. -/
def demoKeyCell : BufCell :=
  { bytes := hkdfSha256 (hexDecode demoMasterKey) [1] (infoFor 1) 32, isNodeBuffer := false }

/-- Concrete freshly constructed vault. -/
def demoVault : VaultState :=
  match VaultService.make (some demoMasterKey) 1000 [1] 5 with
  | .ok s => s
  | .error _ => { keyManager := demoKM0.1, mem := demoKM0.2, dataStore := DataStore.empty }

/-- The demo vault after storing the payload [104, 105] under iv [9, 8, 7],
together with the store result. -/
def demoStorePair : VaultState × StoreResult :=
  match VaultService.store demoVault [104, 105] [9, 8, 7] 6 with
  | .ok p => p
  | .error _ => (demoVault, { id := 0, keyVersion := 0, timestamp := 0 })

/-- The record the demo store created. -/
def demoRec : StoredRecord :=
  match demoStorePair.1.dataStore.retrieve demoStorePair.2.id with
  | some r => r
  | none => { id := 0, keyVersion := 0, ciphertext := [], iv := [], tag := [],
              timestamp := 0, metadata := [] }

/-- The demo vault with bit 0 of byte 0 of the stored ciphertext flipped. -/
def demoTamperedVault : VaultState :=
  { demoStorePair.1 with
    dataStore := { storage := [(0, tamperRecord TamperField.ct demoRec 0 0)], nextId := 1 } }

/-- The demo key manager (one rotation old, both slots populated) after
destroy. -/
def demoDestroyed : KeyManager × Mem := demoKM1.1.destroy demoKM1.2

/-- Length of HKDF output is the requested key length. -/
@[simp] theorem hkdfSha256_length (ikm salt info : Bytes) (len : Nat) :
    (hkdfSha256 ikm salt info len).length = len := by
  simp [hkdfSha256]

theorem ksByte_lt (key iv : Bytes) (i : Nat) : ksByte key iv i < 256 :=
  Nat.mod_lt _ (by omega)

theorem gcmUnmask_gcmMask (key iv : Bytes) :
    ∀ (i : Nat) (pt : Bytes), (∀ b ∈ pt, b < 256) →
      gcmUnmask key iv i (gcmMask key iv i pt) = pt := by
  intro i pt
  induction pt generalizing i with
  | nil => intro _; rfl
  | cons b bs ih =>
    intro h
    have hb : b < 256 := h b (List.mem_cons_self _ _)
    have hk : ksByte key iv i < 256 := ksByte_lt key iv i
    simp only [gcmMask, gcmUnmask, List.cons.injEq]
    constructor
    · omega
    · exact ih (i + 1) (fun x hx => h x (List.mem_cons_of_mem _ hx))

theorem gcmTag_inj {key iv ct key2 iv2 ct2 : Bytes}
    (h : gcmTag key iv ct = gcmTag key2 iv2 ct2) :
    key = key2 ∧ iv = iv2 ∧ ct = ct2 := by
  simp only [gcmTag, List.cons.injEq] at h
  obtain ⟨hklen, happ⟩ := h
  obtain ⟨hk, htail⟩ := List.append_inj happ hklen
  simp only [List.cons.injEq] at htail
  obtain ⟨hilen, happ2⟩ := htail
  obtain ⟨hi, hc⟩ := List.append_inj happ2 hilen
  exact ⟨hk, hi, hc⟩

/-- Round trip of the idealized cipher on byte plaintexts. -/
theorem decrypt_encrypt (data key iv : Bytes) (hkey : key.length = 32)
    (hdata : ∀ b ∈ data, b < 256) :
    (let e := EncryptionService.encrypt data key iv
     EncryptionService.decrypt e.ciphertext e.iv e.tag key) = .ok data := by
  simp only [EncryptionService.encrypt, EncryptionService.decrypt, hkey]
  simp [gcmUnmask_gcmMask key iv 0 data hdata]

/-- Inversion of a successful KeyManager.make: the concrete initial state. -/
theorem KeyManager.make_ok {mkey : List Nat} {i : Nat} {salt : Bytes} {now : Nat}
    {km : KeyManager} {mem : Mem}
    (h : KeyManager.make (some mkey) i salt now = .ok (km, mem)) :
    mkey.length = 64 ∧
    km = { masterKeyBuffer := 0, rotationIntervalMs := i, currentVersion := 1,
           previousVersion := none, currentKey := some 1, previousKey := none,
           rotationTimer := true, lastRotationTime := some now } ∧
    mem = { next := 2,
            contents := [(1, { bytes := hkdfSha256 (hexDecode mkey) salt (infoFor 1) 32,
                               isNodeBuffer := false }),
                         (0, { bytes := hexDecode mkey, isNodeBuffer := true })] } := by
  by_cases hl : mkey.length = 64
  · refine ⟨hl, ?_⟩
    simp only [KeyManager.make, hl] at h
    simp only [Mem.empty, Mem.alloc, Mem.read, Mem.lookupCell, List.lookup] at h
    simp only [if_neg (by omega : ¬ (64 : Nat) ≠ 64)] at h
    rw [show ((0 : Nat) == 0) = true from rfl] at h
    simp only [Option.getD_some, Option.map_some] at h
    have h2 := h
    injection h2 with h3
    injection h3 with hkm hmem
    exact ⟨hkm.symm, hmem.symm⟩
  · exfalso
    simp only [KeyManager.make, if_pos hl] at h
    exact absurd h (by simp)

/-- Unfolding of the successful rotation: the resulting manager and heap. -/
theorem KeyManager.rotateKey_eq (km : KeyManager) (mem : Mem) (salt : Bytes) (now : Nat) :
    km.rotateKey mem salt now =
      ({ km with previousKey := km.currentKey,
                 previousVersion := some km.currentVersion,
                 currentVersion := km.currentVersion + 1,
                 currentKey := some mem.next,
                 lastRotationTime := some now },
       { next := mem.next + 1,
         contents := (mem.next,
           { bytes := hkdfSha256 (mem.read km.masterKeyBuffer) salt
               (infoFor (km.currentVersion + 1)) 32,
             isNodeBuffer := false }) :: mem.contents }) := by
  rfl

/-- Every reachable key-manager state satisfies the structural invariant. -/
theorem kmReach_inv {km : KeyManager} {mem : Mem} (h : KMReach km mem) : KMInv km mem := by
  induction h with
  | made masterKey rotationIntervalMs salt now km mem hmk =>
    cases masterKey with
    | none => exact absurd hmk (by simp [KeyManager.make])
    | some mkey =>
      obtain ⟨-, hkm, hmem⟩ := KeyManager.make_ok hmk
      subst hkm; subst hmem
      refine ⟨rfl, ?_, ?_, ?_⟩
      · intro n hn; exact absurd hn (by simp)
      · intro hp; exact absurd hp (by simp)
      · intro p hp
        simp only [List.mem_cons, List.not_mem_nil, or_false] at hp
        rcases hp with rfl | rfl <;> simp
  | rotated km mem salt now hr ih =>
    obtain ⟨hc, hadj, hpk, hwf⟩ := ih
    rw [KeyManager.rotateKey_eq]
    refine ⟨rfl, ?_, ?_, ?_⟩
    · intro n hn
      simp only [Option.some.injEq] at hn
      simp [hn]
    · intro _; rfl
    · intro p hp
      simp only [List.mem_cons] at hp
      rcases hp with rfl | hp
      · simp
      · exact Nat.lt_succ_of_lt (hwf p hp)

/-- Explicit form of the cipher round trip, phrased on the encrypt output. -/
theorem decrypt_encrypt_explicit (data key iv : Bytes) (hkey : key.length = 32)
    (hdata : ∀ b ∈ data, b < 256) :
    EncryptionService.decrypt (gcmMask key iv 0 data) iv
      (gcmTag key iv (gcmMask key iv 0 data)) key = .ok data := by
  simp only [EncryptionService.decrypt, hkey]
  simp [gcmUnmask_gcmMask key iv 0 data hdata]

/-- Association-list lookup success yields membership. -/
theorem lookup_mem {l : List (Nat × BufCell)} {b : Nat} {c : BufCell}
    (h : l.lookup b = some c) : (b, c) ∈ l := by
  induction l with
  | nil => exact absurd h (by simp [List.lookup])
  | cons p t ih =>
    obtain ⟨a, x⟩ := p
    by_cases hba : b = a
    · subst hba
      rw [List.lookup] at h
      simp only [beq_self_eq_true] at h
      injection h with h
      subst h
      exact List.mem_cons_self _ _
    · rw [List.lookup, beq_eq_false_iff_ne.mpr hba] at h
      exact List.mem_cons_of_mem _ (ih h)

/-- A version for which getKeyByVersion yields a key is supported. -/
theorem isVersionSupported_of_getKeyByVersion {km : KeyManager} {v kid : Nat}
    (h : km.getKeyByVersion v = some kid) : km.isVersionSupported v = true := by
  unfold KeyManager.getKeyByVersion at h
  unfold KeyManager.isVersionSupported
  by_cases h1 : v = km.currentVersion
  · simp [h1]
  · rw [if_neg h1] at h
    by_cases h2 : some v = km.previousVersion ∧ km.previousKey.isSome = true
    · simp [h1, h2.1, h2.2]
    · rw [if_neg (by simpa using h2)] at h
      exact absurd h (by simp)

/-- VaultService.retrieve on a present record of a supported version with a
resolvable key reduces to the decrypt outcome: success case. -/
theorem retrieve_ok_of_decrypt {s : VaultState} {id : Nat} {record : StoredRecord}
    {kid : Nat} {pt : Bytes}
    (hrec : s.dataStore.retrieve id = some record)
    (hkid : s.keyManager.getKeyByVersion record.keyVersion = some kid)
    (hdec : EncryptionService.decrypt record.ciphertext record.iv record.tag
      (s.mem.read kid) = .ok pt) :
    VaultService.retrieve s id = .ok
      { data := pt, keyVersion := record.keyVersion, encryptedAt := record.timestamp } := by
  have hsup := isVersionSupported_of_getKeyByVersion hkid
  unfold VaultService.retrieve
  rw [hrec]
  simp only [hsup, if_true, hkid, EncryptionService.deserialize, hdec]

/-- VaultService.retrieve on a present record of a supported version with a
resolvable key reduces to the decrypt outcome: authentication-failure case. -/
theorem retrieve_authFailed_of_decrypt {s : VaultState} {id : Nat} {record : StoredRecord}
    {kid : Nat}
    (hrec : s.dataStore.retrieve id = some record)
    (hkid : s.keyManager.getKeyByVersion record.keyVersion = some kid)
    (hdec : EncryptionService.decrypt record.ciphertext record.iv record.tag
      (s.mem.read kid) = .error .authenticationFailed) :
    VaultService.retrieve s id = .error .authenticationFailed := by
  have hsup := isVersionSupported_of_getKeyByVersion hkid
  unfold VaultService.retrieve
  rw [hrec]
  simp only [hsup, if_true, hkid, EncryptionService.deserialize, hdec]

/-- Xoring in a power of two changes a natural number. -/
theorem xor_two_pow_ne (b j : Nat) : b ^^^ 2 ^ j ≠ b := by
  intro h
  have h2 : b ^^^ (b ^^^ 2 ^ j) = b ^^^ b := by rw [h]
  rw [← Nat.xor_assoc, Nat.xor_self, Nat.zero_xor] at h2
  exact absurd h2 (Nat.pos_iff_ne_zero.mp (Nat.two_pow_pos j))

/-- Overwriting an in-range element with a different value changes a list. -/
theorem set_ne_of_ne {bs : Bytes} {i : Nat} {v : Nat} (hi : i < bs.length)
    (hv : v ≠ bs.getD i 0) : bs.set i v ≠ bs := by
  induction bs generalizing i with
  | nil => simp at hi
  | cons b t ih =>
    cases i with
    | zero =>
      intro h
      simp only [List.set, List.cons.injEq] at h
      exact hv (by simpa using h.1)
    | succ n =>
      intro h
      simp only [List.set, List.cons.injEq] at h
      exact ih (by simpa using hi) (by simpa using hv) h.2

/-- A single bit flip at a valid byte position changes the byte sequence. -/
theorem flipBit_ne (bs : Bytes) (i j : Nat) (hi : i < bs.length) :
    flipBit bs i j ≠ bs :=
  set_ne_of_ne hi (xor_two_pow_ne _ j)

/-- C2: after construction and any finite sequence of rotateKey/forceRotation
calls, the current version is exactly one more than the previous version
whenever the previous slot is populated; the version starts at 1 at
construction; and every rotation increments the current version by exactly
one, never skipping a version. -/
theorem rotation_adjacency {km : KeyManager} {mem : Mem} (h : KMReach km mem) :
    (∀ n, km.previousVersion = some n → km.currentVersion = n + 1) ∧
    (km.previousKey.isSome = true →
      ∃ n, km.previousVersion = some n ∧ km.currentVersion = n + 1) ∧
    (∀ masterKey i salt now km2 mem2,
      KeyManager.make masterKey i salt now = .ok (km2, mem2) →
      km2.currentVersion = 1) ∧
    (∀ salt now, ((km.rotateKey mem salt now).1).currentVersion = km.currentVersion + 1) := by
  obtain ⟨hc, hadj, hpk, hwf⟩ := kmReach_inv h
  refine ⟨hadj, ?_, ?_, ?_⟩
  · intro hps
    obtain ⟨n, hn⟩ := Option.isSome_iff_exists.mp (hpk hps)
    exact ⟨n, hn, hadj n hn⟩
  · intro masterKey i salt now km2 mem2 hmk
    cases masterKey with
    | none => exact absurd hmk (by simp [KeyManager.make])
    | some mkey =>
      obtain ⟨-, hkm, -⟩ := KeyManager.make_ok hmk
      rw [hkm]
  · intro salt now
    rw [KeyManager.rotateKey_eq]

/-- Witness for C2 at a concrete once-rotated manager. -/
theorem rotation_adjacency_witness :
    demoKM1.1.previousVersion = some 1 ∧ demoKM1.1.currentVersion = 1 + 1 :=
  ⟨rfl, (rotation_adjacency (KMReach.rotated demoKM0.1 demoKM0.2 [2] 6
    (KMReach.made (some demoMasterKey) 1000 [1] 5 demoKM0.1 demoKM0.2 rfl))).1 1 rfl⟩

/-- C3: in every reachable manager state, getKeyByVersion returns the current
key for the current version, the previous key for the previous version, and
null in all other cases; and isVersionSupported is true exactly when
getKeyByVersion returns a key. -/
theorem getKeyByVersion_spec {km : KeyManager} {mem : Mem} (h : KMReach km mem) (v : Nat) :
    (v = km.currentVersion →
      km.getKeyByVersion v = km.currentKey ∧ km.currentKey.isSome = true) ∧
    (km.previousVersion = some v → km.getKeyByVersion v = km.previousKey) ∧
    (v ≠ km.currentVersion → km.previousVersion ≠ some v → km.getKeyByVersion v = none) ∧
    (km.isVersionSupported v = true ↔ (km.getKeyByVersion v).isSome = true) := by
  obtain ⟨hc, hadj, hpk, hwf⟩ := kmReach_inv h
  refine ⟨?_, ?_, ?_, ?_⟩
  · intro hv
    exact ⟨by rw [KeyManager.getKeyByVersion, if_pos hv], hc⟩
  · intro hv
    have hne : v ≠ km.currentVersion := by
      have := hadj v hv
      omega
    rw [KeyManager.getKeyByVersion, if_neg hne]
    cases hpks : km.previousKey with
    | none => rw [if_neg (by simp [hpks])]
    | some pk => rw [if_pos (by simp [hpks, hv])]
  · intro h1 h2
    rw [KeyManager.getKeyByVersion, if_neg h1,
      if_neg (by intro hcon; exact h2 hcon.1.symm)]
  · unfold KeyManager.isVersionSupported KeyManager.getKeyByVersion
    by_cases h1 : v = km.currentVersion
    · simp [h1, hc]
    · by_cases h2 : some v = km.previousVersion
      · cases hpks : km.previousKey with
        | none => simp [h1, h2, hpks]
        | some pk => simp [h1, h2, hpks]
      · simp [h1, h2]

/-- Witness for C3 at a concrete once-rotated manager, on the previous
version. -/
theorem getKeyByVersion_spec_witness :
    demoKM1.1.previousVersion = some 1 ∧
    demoKM1.1.getKeyByVersion 1 = demoKM1.1.previousKey :=
  ⟨rfl, (getKeyByVersion_spec (KMReach.rotated demoKM0.1 demoKM0.2 [2] 6
    (KMReach.made (some demoMasterKey) 1000 [1] 5 demoKM0.1 demoKM0.2 rfl)) 1).2.1 rfl⟩

/-- C9: the KeyManager constructor throws the invalid-secret-length error
exactly when the master key is missing or not 64 hex characters (32 bytes);
on success the current slot holds the version-1 key derived from the master
secret, the previous slot is empty, and the last-rotation timestamp is the
construction time. -/
theorem make_validation (masterKey : Option (List Nat)) (i : Nat) (salt : Bytes) (now : Nat) :
    ((KeyManager.make masterKey i salt now = .error .invalidSecretLength) ↔
      (masterKey = none ∨ ∃ s2, masterKey = some s2 ∧ s2.length ≠ 64)) ∧
    (∀ km mem s2, masterKey = some s2 →
      KeyManager.make masterKey i salt now = .ok (km, mem) →
      km.currentVersion = 1 ∧
      (∃ b, km.currentKey = some b ∧
        mem.read b = hkdfSha256 (hexDecode s2) salt (infoFor 1) 32) ∧
      km.previousVersion = none ∧ km.previousKey = none ∧
      km.lastRotationTime = some now) := by
  constructor
  · cases masterKey with
    | none => simp [KeyManager.make]
    | some mkey =>
      by_cases hl : mkey.length = 64
      · constructor
        · intro h
          rw [KeyManager.make, if_neg (by omega)] at h
          exact absurd h (by simp)
        · intro h
          rcases h with h | ⟨s2, hs2, hlen⟩
          · exact absurd h (by simp)
          · injection hs2 with hs2
            subst hs2
            exact absurd hl hlen
      · constructor
        · intro _
          exact Or.inr ⟨mkey, rfl, hl⟩
        · intro _
          rw [KeyManager.make, if_pos hl]
  · intro km mem s2 hmk h
    subst hmk
    obtain ⟨-, hkm, hmem⟩ := KeyManager.make_ok h
    subst hkm
    subst hmem
    exact ⟨rfl, ⟨1, rfl, rfl⟩, rfl, rfl, rfl⟩

/-- Witness for C9 at a concrete valid master key. -/
theorem make_validation_witness :
    KeyManager.make (some demoMasterKey) 1000 [1] 5 = .ok (demoKM0.1, demoKM0.2) ∧
    (demoKM0.1.currentVersion = 1 ∧
      (∃ b, demoKM0.1.currentKey = some b ∧
        demoKM0.2.read b = hkdfSha256 (hexDecode demoMasterKey) [1] (infoFor 1) 32) ∧
      demoKM0.1.previousVersion = none ∧ demoKM0.1.previousKey = none ∧
      demoKM0.1.lastRotationTime = some 5) :=
  ⟨rfl, (make_validation (some demoMasterKey) 1000 [1] 5).2 demoKM0.1 demoKM0.2
    demoMasterKey rfl rfl⟩

/-- C10: a forced rotation leaves the data store untouched: the store value,
every record lookup, and the list of stored ids are all unchanged. -/
theorem forceRotation_frame (s : VaultState) (salt : Bytes) (now : Nat) :
    (VaultService.forceRotation s salt now).dataStore = s.dataStore ∧
    (∀ id, (VaultService.forceRotation s salt now).dataStore.retrieve id
      = s.dataStore.retrieve id) ∧
    (VaultService.forceRotation s salt now).dataStore.storage.map Prod.fst
      = s.dataStore.storage.map Prod.fst :=
  ⟨rfl, fun _ => rfl, rfl⟩

/-- C6 counterexample: a failing key derivation during rotateKey does not
leave the manager state unchanged (the version fields and previous slot are
already overwritten when hkdfSync throws). -/
theorem rotation_failure_counterexample :
    (demoKM0.1.rotateKeyAttempt demoKM0.2 [2] 6 false).1 ≠ demoKM0.1 ∧
    (demoKM0.1.rotateKeyAttempt demoKM0.2 [2] 6 false).1.currentVersion
      = demoKM0.1.currentVersion + 1 := by
  exact ⟨by decide, rfl⟩

/-- C6 amended: when the hkdfSync call of rotateKey throws, the current key
buffer, the last-rotation timestamp and the heap are unchanged, but the
previous slot has already been overwritten with the old current pair and the
current version has already been incremented. -/
theorem rotation_failure_partial_state (km : KeyManager) (mem : Mem) (salt : Bytes)
    (now : Nat) :
    (km.rotateKeyAttempt mem salt now false).1.currentKey = km.currentKey ∧
    (km.rotateKeyAttempt mem salt now false).1.lastRotationTime = km.lastRotationTime ∧
    (km.rotateKeyAttempt mem salt now false).2 = mem ∧
    (km.rotateKeyAttempt mem salt now false).1.previousKey = km.currentKey ∧
    (km.rotateKeyAttempt mem salt now false).1.previousVersion = some km.currentVersion ∧
    (km.rotateKeyAttempt mem salt now false).1.currentVersion = km.currentVersion + 1 ∧
    (km.rotateKeyAttempt mem salt now false).1.masterKeyBuffer = km.masterKeyBuffer ∧
    (km.rotateKeyAttempt mem salt now false).1.rotationTimer = km.rotationTimer :=
  ⟨rfl, rfl, rfl, rfl, rfl, rfl, rfl, rfl⟩

/-- VaultService.retrieve on a present record whose key version is not
supported reports the expiry error with the current and previous versions. -/
theorem retrieve_expired {s : VaultState} {id : Nat} {record : StoredRecord}
    (hrec : s.dataStore.retrieve id = some record)
    (hsup : s.keyManager.isVersionSupported record.keyVersion = false) :
    VaultService.retrieve s id = .error (.keyVersionExpired record.keyVersion
      s.keyManager.currentVersion s.keyManager.previousVersion) := by
  unfold VaultService.retrieve
  rw [hrec]
  simp only [hsup]
  rfl

/-- C5: a record encrypted under the then-current version V is, after exactly
two rotations, rejected by retrieve with the key-version-expired error (a
failure distinct by constructor from record-not-found and from
authentication failure), reporting the current version as V+2 and the
previous version as V+1. -/
theorem two_rotation_expiry (s : VaultState) (id : Nat) (rec : StoredRecord)
    (hrec : s.dataStore.retrieve id = some rec)
    (hver : rec.keyVersion = s.keyManager.currentVersion)
    (salt1 salt2 : Bytes) (t1 t2 : Nat) :
    VaultService.retrieve
      (VaultService.forceRotation (VaultService.forceRotation s salt1 t1) salt2 t2) id
      = .error (.keyVersionExpired rec.keyVersion (rec.keyVersion + 2)
          (some (rec.keyVersion + 1))) := by
  have hrec2 : (VaultService.forceRotation (VaultService.forceRotation s salt1 t1)
      salt2 t2).dataStore.retrieve id = some rec := hrec
  have hcv : (VaultService.forceRotation (VaultService.forceRotation s salt1 t1)
      salt2 t2).keyManager.currentVersion = s.keyManager.currentVersion + 2 := rfl
  have hpv : (VaultService.forceRotation (VaultService.forceRotation s salt1 t1)
      salt2 t2).keyManager.previousVersion = some (s.keyManager.currentVersion + 1) := rfl
  have hsup : (VaultService.forceRotation (VaultService.forceRotation s salt1 t1)
      salt2 t2).keyManager.isVersionSupported rec.keyVersion = false := by
    unfold KeyManager.isVersionSupported
    rw [hcv, hpv, hver]
    rw [decide_eq_false
      (by omega : ¬ (s.keyManager.currentVersion = s.keyManager.currentVersion + 2))]
    rw [decide_eq_false (show
      ¬ (some s.keyManager.currentVersion = some (s.keyManager.currentVersion + 1)) by
        intro hcon; injection hcon with hcon; omega)]
    rfl
  have hres := retrieve_expired hrec2 hsup
  rw [hcv, hpv, hver] at hres
  rw [hver]
  exact hres

/-- Witness for C5 at the concrete demo vault: stored under version 1, two
rotations make retrieval fail reporting current version 3 and previous 2. -/
theorem two_rotation_expiry_witness :
    demoStorePair.1.dataStore.retrieve 0 = some demoRec ∧
    VaultService.retrieve
      (VaultService.forceRotation (VaultService.forceRotation demoStorePair.1 [2] 7) [3] 8) 0
      = .error (.keyVersionExpired 1 3 (some 2)) :=
  ⟨rfl, two_rotation_expiry demoStorePair.1 0 demoRec rfl rfl [2] [3] 7 8⟩

/-- Store followed by retrieve of the fresh id round-trips, on any vault
state whose current key resolves to a 32-byte buffer. -/
theorem store_then_retrieve (s : VaultState) (data iv : Bytes) (now2 : Nat) (kid : Nat)
    (hcur : s.keyManager.currentKey = some kid)
    (hklen : (s.mem.read kid).length = 32)
    (hkv : s.keyManager.getKeyByVersion s.keyManager.currentVersion = some kid)
    (hdata : ∀ b ∈ data, b < 256) :
    ∃ s2 r, VaultService.store s data iv now2 = .ok (s2, r) ∧
      ∃ out, VaultService.retrieve s2 r.id = .ok out ∧ out.data = data := by
  refine ⟨{ s with dataStore :=
      { storage := (s.dataStore.nextId,
          { id := s.dataStore.nextId, keyVersion := s.keyManager.currentVersion,
            ciphertext := gcmMask (s.mem.read kid) iv 0 data, iv := iv,
            tag := gcmTag (s.mem.read kid) iv (gcmMask (s.mem.read kid) iv 0 data),
            timestamp := now2, metadata := [] }) :: s.dataStore.storage,
        nextId := s.dataStore.nextId + 1 } },
    { id := s.dataStore.nextId, keyVersion := s.keyManager.currentVersion,
      timestamp := now2 }, ?_, ?_⟩
  · unfold VaultService.store KeyManager.getCurrentKey
    rw [hcur]
    rfl
  · have hrec2 : (((s.dataStore.nextId,
        ({ id := s.dataStore.nextId, keyVersion := s.keyManager.currentVersion,
           ciphertext := gcmMask (s.mem.read kid) iv 0 data, iv := iv,
           tag := gcmTag (s.mem.read kid) iv (gcmMask (s.mem.read kid) iv 0 data),
           timestamp := now2, metadata := [] } : StoredRecord)) ::
          s.dataStore.storage).lookup s.dataStore.nextId) = some
        { id := s.dataStore.nextId, keyVersion := s.keyManager.currentVersion,
          ciphertext := gcmMask (s.mem.read kid) iv 0 data, iv := iv,
          tag := gcmTag (s.mem.read kid) iv (gcmMask (s.mem.read kid) iv 0 data),
          timestamp := now2, metadata := [] } := by
      rw [List.lookup]
      simp only [beq_self_eq_true]
    exact ⟨_, retrieve_ok_of_decrypt hrec2 hkv
      (decrypt_encrypt_explicit data _ iv hklen hdata), rfl⟩

/-- C1: on a freshly constructed vault, storing any payload (its serialized
bytes) and immediately retrieving the returned id succeeds and yields back
exactly the stored payload in the data field. -/
theorem store_retrieve_roundtrip (mkey : List Nat) (i : Nat) (salt : Bytes) (now : Nat)
    (s : VaultState) (hs : VaultService.make (some mkey) i salt now = .ok s)
    (data iv : Bytes) (hdata : ∀ b ∈ data, b < 256) (now2 : Nat) :
    ∃ s2 r, VaultService.store s data iv now2 = .ok (s2, r) ∧
      ∃ out, VaultService.retrieve s2 r.id = .ok out ∧ out.data = data := by
  cases hmk : KeyManager.make (some mkey) i salt now with
  | error e =>
    rw [VaultService.make, hmk] at hs
    exact absurd hs (by simp [Except.map])
  | ok p =>
    obtain ⟨km0, mem0⟩ := p
    rw [VaultService.make, hmk] at hs
    simp only [Except.map] at hs
    injection hs with hs
    obtain ⟨-, hkm, hmem⟩ := KeyManager.make_ok hmk
    subst hkm
    subst hmem
    subst hs
    exact store_then_retrieve _ data iv now2 1 rfl
      (by simp [Mem.read, Mem.lookupCell, List.lookup]) rfl hdata

/-- Witness for C1 at a concrete fresh vault and payload. -/
theorem store_retrieve_roundtrip_witness :
    (∀ b ∈ ([104, 105] : Bytes), b < 256) ∧
    (∃ s2 r, VaultService.store demoVault [104, 105] [9, 8, 7] 6 = .ok (s2, r) ∧
      ∃ out, VaultService.retrieve s2 r.id = .ok out ∧ out.data = [104, 105]) :=
  ⟨by decide, store_retrieve_roundtrip demoMasterKey 1000 [1] 5 demoVault rfl
    [104, 105] [9, 8, 7] (by decide) 6⟩

/-- C4: if the stored copy of a record differs from an authentic one (tag
computed under the key its version resolves to) by a single flipped bit in
the ciphertext, the iv or the tag, then retrieve fails with the
authentication failure, never succeeding with wrong data. -/
theorem tamper_detection (s : VaultState) (id : Nat) (rec : StoredRecord) (kid : Nat)
    (f : TamperField) (i j : Nat)
    (hkid : s.keyManager.getKeyByVersion rec.keyVersion = some kid)
    (hklen : (s.mem.read kid).length = 32)
    (htag : rec.tag = gcmTag (s.mem.read kid) rec.iv rec.ciphertext)
    (hrec : s.dataStore.retrieve id = some (tamperRecord f rec i j))
    (hi : i < (tamperTarget f rec).length) (hj : j < 8) :
    VaultService.retrieve s id = .error .authenticationFailed := by
  have hkid2 : s.keyManager.getKeyByVersion (tamperRecord f rec i j).keyVersion = some kid := by
    rw [show (tamperRecord f rec i j).keyVersion = rec.keyVersion by cases f <;> rfl]
    exact hkid
  refine retrieve_authFailed_of_decrypt hrec hkid2 ?_
  cases f with
  | ct =>
    simp only [tamperRecord, tamperTarget] at hi ⊢
    unfold EncryptionService.decrypt
    rw [if_neg (fun hn => hn hklen)]
    rw [if_neg ?tagct]
    case tagct =>
      intro heq
      obtain ⟨-, -, hct⟩ := gcmTag_inj (htag.symm.trans heq)
      exact flipBit_ne rec.ciphertext i j hi hct.symm
  | iv =>
    simp only [tamperRecord, tamperTarget] at hi ⊢
    unfold EncryptionService.decrypt
    rw [if_neg (fun hn => hn hklen)]
    rw [if_neg ?tagiv]
    case tagiv =>
      intro heq
      obtain ⟨-, hivx, -⟩ := gcmTag_inj (htag.symm.trans heq)
      exact flipBit_ne rec.iv i j hi hivx.symm
  | tag =>
    simp only [tamperRecord, tamperTarget] at hi ⊢
    unfold EncryptionService.decrypt
    rw [if_neg (fun hn => hn hklen)]
    rw [if_neg ?tagtag]
    case tagtag =>
      intro heq
      exact flipBit_ne rec.tag i j hi (heq.trans htag.symm)

/-- Witness for C4: the demo vault with bit 0 of ciphertext byte 0 flipped is
rejected with the authentication failure. -/
theorem tamper_detection_witness :
    0 < (tamperTarget TamperField.ct demoRec).length ∧
    VaultService.retrieve demoTamperedVault 0 = .error .authenticationFailed :=
  ⟨by decide, tamper_detection demoTamperedVault 0 demoRec 1 TamperField.ct 0 0
    (by decide) (by decide) (by decide) rfl (by decide) (by decide)⟩

/-- C7 counterexample: the second rotation of the demo manager discards the
version-1 key (buffer 1, the previous key at that point) by overwriting the
reference only; after the rotation the buffer still holds its original,
nonzero bytes instead of being zero-filled. -/
theorem rotate_discard_counterexample :
    demoKM1.1.previousKey = some 1 ∧
    demoKM2.2.read 1 = demoKM1.2.read 1 ∧
    demoKM2.2.read 1 ≠ List.replicate 32 0 := by
  refine ⟨rfl, by decide, by decide⟩

/-- C7 amended: rotateKey never writes to any existing buffer: every heap
cell present before the rotation (in particular the discarded previous key)
is unchanged, and the discard is only the overwrite of the previousKey
reference by the old current key. -/
theorem rotateKey_discard_no_zeroing {km : KeyManager} {mem : Mem}
    (h : KMReach km mem) (salt : Bytes) (now : Nat) (b : Nat) (c : BufCell)
    (hb : mem.lookupCell b = some c) :
    (km.rotateKey mem salt now).2.lookupCell b = some c ∧
    (km.rotateKey mem salt now).1.previousKey = km.currentKey := by
  obtain ⟨-, -, -, hwf⟩ := kmReach_inv h
  have hblt : b < mem.next := hwf _ (lookup_mem hb)
  constructor
  · rw [KeyManager.rotateKey_eq]
    show List.lookup b ((mem.next, _) :: mem.contents) = some c
    rw [List.lookup, beq_eq_false_iff_ne.mpr (by omega : b ≠ mem.next)]
    exact hb
  · rw [KeyManager.rotateKey_eq]

/-- Witness for C7 amended, at the demo manager after one rotation: rotating
again leaves the old previous-key buffer (id 1) intact. -/
theorem rotateKey_discard_no_zeroing_witness :
    demoKM1.2.lookupCell 1 = some demoKeyCell ∧
    ((demoKM1.1.rotateKey demoKM1.2 [3] 7).2.lookupCell 1 = some demoKeyCell ∧
      (demoKM1.1.rotateKey demoKM1.2 [3] 7).1.previousKey = demoKM1.1.currentKey) :=
  ⟨rfl, rotateKey_discard_no_zeroing (KMReach.rotated demoKM0.1 demoKM0.2 [2] 6
    (KMReach.made (some demoMasterKey) 1000 [1] 5 demoKM0.1 demoKM0.2 rfl)) [3] 7 1
    demoKeyCell rfl⟩

/-- C8: evaluation of destroy at a concrete rotated manager.  The rotation
timer is cancelled and the master-key Buffer is zero-filled, but the current
and previous derived keys are ArrayBuffers returned by crypto.hkdfSync, for
which the Buffer.isBuffer guard in destroy is false, so their bytes survive
destroy unchanged and nonzero, contradicting the claim that all retained key
material is zero-filled. -/
theorem destroy_leaves_derived_keys :
    demoDestroyed.1.rotationTimer = false ∧
    demoKM1.1.masterKeyBuffer = 0 ∧
    demoDestroyed.2.read 0 = List.replicate 32 0 ∧
    demoKM1.1.currentKey = some 2 ∧
    demoKM1.1.previousKey = some 1 ∧
    demoDestroyed.2.read 2 = demoKM1.2.read 2 ∧
    demoDestroyed.2.read 2 ≠ List.replicate 32 0 ∧
    demoDestroyed.2.read 1 = demoKM1.2.read 1 ∧
    demoDestroyed.2.read 1 ≠ List.replicate 32 0 := by
  refine ⟨rfl, rfl, by decide, rfl, rfl, by decide, by decide, by decide, by decide⟩
